import Mathlib

/-!
# Verification of the bruceObloc tick-analysis core

Shallow embedding of the TypeScript sources:

* `TradeIndicators.tsx` — `calculateIsWinning` (contract evaluator);
* `TradeProfitLoss.tsx` — `getTradeProfit` (per-position P&L);
* `danalysis` component — `extractDigit`, `calculateDigitStats`,
  `handleTickData` (window push), `DAnalysisAPI` (history fetch,
  reconnection, subscriptions), and the TICKS input handler.

JavaScript numbers are modelled as exact rationals (`ℚ`); JS `%` on
numbers is the truncated remainder (`jsMod` below), and JS `%` on the
integer digit is `Int.tmod` (truncation toward zero), which differs from
Lean's `%` (`Int.emod`) on negative operands.  Strings that JS produces
by `Number.prototype.toString` are taken as inputs (the canonical
decimal representation of the price).
-/

/-! ## Contract evaluator (`TradeIndicators.tsx`, `calculateIsWinning`) -/

inductive TradeStatus where
  | OPEN | WON | LOST
deriving DecidableEq

/-- The fields of the TS `TradePosition` record that the evaluator and the
P&L computation read.  `prediction` is a string so that the `default`
branch of the source `switch` (unrecognized kinds) is expressible. -/
structure TradePosition where
  prediction : String
  entryPrice : ℚ
  barrier : Option ℚ := none
  stake : ℚ := 0
  payout : ℚ := 0
  status : TradeStatus := .OPEN
  isWinning : Bool := false
deriving DecidableEq

/-- JS `Math.trunc`-style rounding used by the `%` operator: toward zero. -/
def jsTrunc (q : ℚ) : ℤ := if 0 ≤ q then ⌊q⌋ else ⌈q⌉

/-- JS remainder `a % b` on numbers: `a - b * trunc (a / b)`. -/
def jsMod (a b : ℚ) : ℚ := a - b * (jsTrunc (a / b) : ℚ)

/-- `Math.floor((price * 10000) % 10)` — the scaled-numeric last digit used
by the barrier contracts. -/
def lastDigitScaled (price : ℚ) : ℤ := ⌊jsMod (price * 10000) 10⌋

/-- `calculateIsWinning` from `TradeIndicators.tsx`, lines 140–181.
Branches are in source `switch` order; `Int.tmod` is JS `%` on the
(possibly negative) integer digit. -/
def calculateIsWinning (trade : TradePosition) (price : ℚ) : Bool :=
  if trade.prediction = "RISE" ∨ trade.prediction = "HIGHER" then
    decide (trade.entryPrice < price)
  else if trade.prediction = "FALL" ∨ trade.prediction = "LOWER" then
    decide (price < trade.entryPrice)
  else if trade.prediction = "OVER" then
    match trade.barrier with
    | some b => decide (b < (lastDigitScaled price : ℚ))
    | none => false
  else if trade.prediction = "UNDER" then
    match trade.barrier with
    | some b => decide ((lastDigitScaled price : ℚ) < b)
    | none => false
  else if trade.prediction = "EVEN" then
    decide (Int.tmod (lastDigitScaled price) 2 = 0)
  else if trade.prediction = "ODD" then
    decide (Int.tmod (lastDigitScaled price) 2 = 1)
  else if trade.prediction = "MATCHES" then
    match trade.barrier with
    | some b => decide ((lastDigitScaled price : ℚ) = b)
    | none => false
  else if trade.prediction = "DIFFERS" then
    match trade.barrier with
    | some b => decide ((lastDigitScaled price : ℚ) ≠ b)
    | none => false
  else
    false

/-- The winning table of spec §4.3, written from the spec's words: barrier
kinds guard on barrier presence via `Option.elim`, and EVEN/ODD are
mathematical parity of the scaled digit (`%` is `Int.emod`). -/
def specWinningTable (kind : String) (entryPrice currentPrice : ℚ)
    (barrier : Option ℚ) : Bool :=
  if kind = "RISE" ∨ kind = "HIGHER" then decide (entryPrice < currentPrice)
  else if kind = "FALL" ∨ kind = "LOWER" then decide (currentPrice < entryPrice)
  else if kind = "OVER" then
    barrier.elim false (fun b => decide (b < (lastDigitScaled currentPrice : ℚ)))
  else if kind = "UNDER" then
    barrier.elim false (fun b => decide ((lastDigitScaled currentPrice : ℚ) < b))
  else if kind = "EVEN" then decide (lastDigitScaled currentPrice % 2 = 0)
  else if kind = "ODD" then decide (lastDigitScaled currentPrice % 2 = 1)
  else if kind = "MATCHES" then
    barrier.elim false (fun b => decide ((lastDigitScaled currentPrice : ℚ) = b))
  else if kind = "DIFFERS" then
    barrier.elim false (fun b => decide ((lastDigitScaled currentPrice : ℚ) ≠ b))
  else false

/-- `getTradeProfit` from `TradeProfitLoss.tsx`, lines 56–64. -/
def getTradeProfit (trade : TradePosition) : ℚ :=
  if trade.status = .OPEN then
    if trade.isWinning then trade.payout - trade.stake else -trade.stake
  else if trade.status = .WON then trade.payout - trade.stake
  else -trade.stake

lemma lastDigitScaled_nonneg (price : ℚ) (hp : 0 ≤ price) :
    0 ≤ lastDigitScaled price := by
  have h10 : (0:ℚ) < 10 := by norm_num
  have ha : 0 ≤ price * 10000 := by positivity
  have htr : jsTrunc (price * 10000 / 10) = ⌊price * 10000 / 10⌋ := by
    unfold jsTrunc
    rw [if_pos (by positivity)]
  have hfl : (⌊price * 10000 / 10⌋ : ℚ) ≤ price * 10000 / 10 :=
    Int.floor_le _
  have : 0 ≤ jsMod (price * 10000) 10 := by
    unfold jsMod
    rw [htr]
    nlinarith [hfl]
  exact Int.floor_nonneg.mpr this

lemma int_mod_eq_emod_of_nonneg (a : ℤ) (ha : 0 ≤ a) :
    Int.tmod a 2 = a % 2 := by
  obtain ⟨n, rfl⟩ := Int.eq_ofNat_of_zero_le ha
  rfl

/-- **C1** (amended to nonnegative current prices).  For every prediction
kind, entry price, nonnegative current price and optional barrier, the
evaluator's winning predicate equals the §4.3 table: RISE/HIGHER iff
current > entry, FALL/LOWER iff current < entry, OVER/UNDER/MATCHES/DIFFERS
compare the scaled-numeric last digit with the barrier and are never
winning without one, EVEN/ODD iff that digit is even/odd, and any
unrecognized kind is not winning (the function is total, so it never
throws). -/
theorem c1_winning_matches_table (trade : TradePosition) (price : ℚ)
    (hp : 0 ≤ price) :
    calculateIsWinning trade price =
      specWinningTable trade.prediction trade.entryPrice price trade.barrier := by
  have hmod : Int.tmod (lastDigitScaled price) 2 = lastDigitScaled price % 2 :=
    int_mod_eq_emod_of_nonneg _ (lastDigitScaled_nonneg price hp)
  rcases trade with ⟨pred, entry, barrier, stake, payout, status, isw⟩
  cases barrier <;>
    simp only [calculateIsWinning, specWinningTable, Option.elim, hmod]

/-- **C1** witness: the amended theorem instantiated at an OVER position
and price 3 (hypothesis `0 ≤ 3` discharged concretely). -/
theorem c1_winning_matches_table_witness :
    (0:ℚ) ≤ 3 ∧
      calculateIsWinning ⟨"OVER", 100, some 5, 1, 2, .OPEN, false⟩ 3 =
        specWinningTable "OVER" 100 3 (some 5) :=
  ⟨by norm_num, c1_winning_matches_table ⟨"OVER", 100, some 5, 1, 2, .OPEN, false⟩ 3 (by norm_num)⟩

/-- **C1** counterexample to the claim as stated (which quantifies over
every current price): at price `-1/20000` the scaled-numeric last digit is
`-1`, which is odd, yet an ODD contract is not winning, because JS `%`
returns `-1` there and the code tests `=== 1`. -/
theorem c1_counterexample :
    lastDigitScaled (-(1/20000) : ℚ) = -1 ∧
      ((-1 : ℤ) % 2 = 1) ∧
      calculateIsWinning ⟨"ODD", 0, none, 0, 0, .OPEN, false⟩ (-(1/20000) : ℚ) = false := by
  have hc : ⌈(-(1/20) : ℚ)⌉ = 0 := by norm_num
  have hd : lastDigitScaled (-(1/20000) : ℚ) = -1 := by
    norm_num [lastDigitScaled, jsMod, jsTrunc, hc]
  refine ⟨hd, by decide, ?_⟩
  unfold calculateIsWinning
  rw [if_neg (by decide), if_neg (by decide), if_neg (by decide),
    if_neg (by decide), if_neg (by decide), if_pos (by decide), hd]
  decide

/-- The concrete position of the §8 scenario (C8): OVER, barrier 5,
entry price 100.000. -/
def c8Position (stake payout : ℚ) : TradePosition :=
  ⟨"OVER", 100, some 5, stake, payout, .OPEN, false⟩

/-- **C8** (amended).  Price 100.007 scaled by 10⁴ is 1000070, whose JS
remainder mod 10 is 0 — the scaled-numeric last digit is 0, not 7 — so the
position evaluates to `isWinning = false` and its OPEN contribution is
`-stake`; an OPEN position that is winning contributes `payout - stake`. -/
theorem c8_scenario (stake payout : ℚ) :
    calculateIsWinning (c8Position stake payout) (100007/1000 : ℚ) = false ∧
      getTradeProfit { c8Position stake payout with isWinning := false } = -stake ∧
      getTradeProfit { c8Position stake payout with isWinning := true } = payout - stake := by
  have hd : lastDigitScaled (100007/1000 : ℚ) = 0 := by
    norm_num [lastDigitScaled, jsMod, jsTrunc]
  refine ⟨?_, by simp [getTradeProfit, c8Position], by simp [getTradeProfit, c8Position]⟩
  simp [calculateIsWinning, c8Position, hd]

/-- **C8** counterexample to the claim as stated: the claim says the tick
price 100.007 has scaled last digit 7 and yields `isWinning = true`; in
fact the digit is 0 and the evaluation is `false`. -/
theorem c8_counterexample :
    lastDigitScaled (100007/1000 : ℚ) = 0 ∧
      calculateIsWinning (c8Position 1 2) (100007/1000 : ℚ) = false := by
  have hd : lastDigitScaled (100007/1000 : ℚ) = 0 := by
    norm_num [lastDigitScaled, jsMod, jsTrunc]
  exact ⟨hd, by simp [calculateIsWinning, c8Position, hd]⟩

/-! ## Digit extractor (`danalysis`, `extractDigit`)

`extractDigit` receives a JS number and takes `price.toString()`; the
embedding takes that canonical decimal string as its input (e.g. the
canonical representation of the JS number `100.00` is `"100"`). -/

/-- `parseInt` accepts exactly the ASCII digits `'0'`–`'9'` (code points
48–57). -/
def isAsciiDigit (c : Char) : Bool := 48 ≤ c.toNat && c.toNat ≤ 57

/-- `priceStr.charAt(priceStr.length - 1)`: the last character, or none for
the empty string (JS returns `""`, on which `parseInt` gives `NaN`). -/
def jsCharAtLast (s : String) : Option Char := s.toList.getLast?

/-- `parseInt` applied to a single-character string: the digit value, or
none (`NaN`) for a non-digit character. -/
def jsParseIntChar (c : Option Char) : Option Nat :=
  match c with
  | none => none
  | some ch => if isAsciiDigit ch then some (ch.toNat - 48) else none

/-- `extractDigit` from the `danalysis` component, lines 350–354:
`parseInt(lastChar) || 0` (the `|| 0` maps `NaN` — and the falsy digit
`0` — to `0`). -/
def extractDigit (s : String) : Nat :=
  match jsParseIntChar (jsCharAtLast s) with
  | none => 0
  | some n => if n = 0 then 0 else n

/-- The spec's description of `extractDigit` (§4.2): the last character of
the canonical decimal string, interpreted as its digit value, with a
non-digit last character mapping to 0. -/
def specLastDigitOfString (s : String) : Nat :=
  match s.toList.getLast? with
  | some c => if isAsciiDigit c then c.toNat - 48 else 0
  | none => 0

/-- **C4**.  `extractDigit` equals the spec's last-character reading, its
value always lies in 0..9, and the two anchor examples hold
(`(100.00).toString()` is `"100"`, whose last character is `'0'`).  The
function is a total Lean definition, hence pure and total. -/
theorem c4_extract_digit :
    (∀ s : String, extractDigit s = specLastDigitOfString s ∧ extractDigit s ≤ 9) ∧
      extractDigit "7054.231" = 1 ∧ extractDigit "100" = 0 := by
  refine ⟨fun s => ?_, by decide, by decide⟩
  unfold extractDigit specLastDigitOfString jsParseIntChar jsCharAtLast
  cases h : s.toList.getLast? with
  | none => simp
  | some c =>
    by_cases hc : isAsciiDigit c
    · have hb : 48 ≤ c.toNat ∧ c.toNat ≤ 57 := by
        simpa [isAsciiDigit] using hc
      constructor
      · simp only [hc, if_true]
        split <;> omega
      · simp only [hc, if_true]
        split <;> omega
    · simp [hc]

/-! ## Tick window push (`danalysis`, `handleTickData`) -/

/-- One live tick as stored by the `danalysis` component; the digit always
comes from `extractDigit` and therefore lies in 0..9. -/
structure TickData where
  digit : Fin 10
  price : ℚ
  timestamp : ℤ
deriving DecidableEq

/-- `setTickHistory(prev => [newTick, ...prev].slice(0, tickCount))` from
`handleTickData` (lines 437–441): the history is kept newest-first and
truncated to the capacity. -/
def pushTick (cap : Nat) (t : TickData) (hist : List TickData) : List TickData :=
  (t :: hist).take cap

/-- **C5**.  Pushing a tick onto a full history of positive capacity `cap`
yields exactly `cap` ticks: the new tick followed by all previous ticks
except the last stored one — the oldest, since the list is newest-first —
which is evicted (FIFO). -/
theorem c5_window_eviction (cap : Nat) (t : TickData) (hist : List TickData)
    (hfull : hist.length = cap) (hpos : 0 < cap) :
    pushTick cap t hist = t :: hist.dropLast ∧
      (pushTick cap t hist).length = cap := by
  obtain ⟨k, rfl⟩ := Nat.exists_eq_succ_of_ne_zero (Nat.pos_iff_ne_zero.mp hpos)
  constructor
  · unfold pushTick
    rw [List.take_succ_cons]
    congr 1
    rw [List.dropLast_eq_take, hfull]
    simp
  · unfold pushTick
    rw [List.length_take]
    simp [hfull]

/-- **C5** witness: capacity 3, a full three-tick history, one push. -/
theorem c5_window_eviction_witness :
    ([⟨1, 1, 1⟩, ⟨2, 2, 2⟩, ⟨3, 3, 3⟩] : List TickData).length = 3 ∧ 0 < 3 ∧
      (pushTick 3 ⟨4, 4, 4⟩ [⟨1, 1, 1⟩, ⟨2, 2, 2⟩, ⟨3, 3, 3⟩] =
          [⟨4, 4, 4⟩, ⟨1, 1, 1⟩, ⟨2, 2, 2⟩] ∧
        (pushTick 3 ⟨4, 4, 4⟩ [⟨1, 1, 1⟩, ⟨2, 2, 2⟩, ⟨3, 3, 3⟩]).length = 3) :=
  ⟨by decide, by decide,
    c5_window_eviction 3 ⟨4, 4, 4⟩ [⟨1, 1, 1⟩, ⟨2, 2, 2⟩, ⟨3, 3, 3⟩] (by decide) (by decide)⟩

/-! ## TICKS input handler (`danalysis`, the tick-count state) -/

/-- `parseInt` on a full string: optional sign, then a maximal run of
ASCII digits; `NaN` (none) when no digit is present. -/
def jsParseInt (s : String) : Option ℤ :=
  let digitsVal : List Char → Option ℤ := fun cs =>
    let ds := cs.takeWhile isAsciiDigit
    if ds.isEmpty then none
    else some (ds.foldl (fun a c => a * 10 + ((c.toNat : ℤ) - 48)) 0)
  match s.toList with
  | '-' :: rest => (digitsVal rest).map (fun n => -n)
  | '+' :: rest => digitsVal rest
  | cs => digitsVal cs

/-- The `onChange` handler of the TICKS input (line 614):
`setTickCount(parseInt(e.target.value) || 1000)`.  The JSX `min="100"`
`max="5000"` attributes are not enforced here. -/
def onTicksCountChange (v : String) : ℤ :=
  match jsParseInt v with
  | none => 1000
  | some n => if n = 0 then 1000 else n

/-- `useState(1000)` — the default tick-count (window capacity). -/
def defaultTickCount : ℕ := 1000

/-- **C9** (code bug evidence).  The default capacity is 1000 as claimed,
but typing `"7"` into the TICKS input stores capacity 7, below the
documented lower bound 100: the handler performs no clamping, even though
the input element declares `min="100"` and `max="5000"`. -/
theorem c9_capacity_not_clamped :
    defaultTickCount = 1000 ∧ onTicksCountChange "7" = 7 ∧ (7 : ℤ) < 100 := by
  refine ⟨rfl, ?_, by decide⟩
  decide

/-! ## Digit statistics (`danalysis`, `calculateDigitStats`)

The tick history is kept newest-first; the `Matches`/`Differs` market
filters keep a tick iff its digit equals/differs from the digit of the
tick at the previous array index (the first array element is always
excluded).  Percentages are rounded to one decimal by
`parseFloat(x.toFixed(1))`, and the rank flags are set through two stable
sorts of a copy of the stats array (JS `Array.prototype.sort` is stable;
an insertion sort that keeps earlier elements first on ties realizes the
same result). -/

structure DigitStat where
  digit : Nat
  count : Nat
  percentage : ℚ
  isHighest : Bool
  is2ndHighest : Bool
  isLowest : Bool
  is2ndLowest : Bool
deriving DecidableEq

inductive Market where
  | circles | matches | differs
deriving DecidableEq

/-- Walk of `ticks.filter((tick, index) => index > 0 && keep(ticks[index-1].digit, tick.digit))`
starting from the second element. -/
def adjGo (keep : Fin 10 → Fin 10 → Bool) (prev : TickData) :
    List TickData → List TickData
  | [] => []
  | c :: rest =>
    if keep prev.digit c.digit then c :: adjGo keep c rest
    else adjGo keep c rest

/-- Index-adjacent filter: the first tick is always excluded. -/
def adjFilter (keep : Fin 10 → Fin 10 → Bool) : List TickData → List TickData
  | [] => []
  | t :: ts => adjGo keep t ts

/-- The three market modes of `calculateDigitStats` (lines 372–386):
no filter, consecutive equal digits, consecutive different digits. -/
def filterTicks : Market → List TickData → List TickData
  | .circles, ts => ts
  | .matches, ts => adjFilter (fun a b => a == b) ts
  | .differs, ts => adjFilter (fun a b => a != b) ts

/-- `digitCounts[d]` after the counting loop (lines 389–391). -/
def countDigit (l : List TickData) (d : Nat) : Nat :=
  (l.filter (fun t => t.digit.val == d)).length

/-- `parseFloat(x.toFixed(1))`: rounding to one decimal place. -/
def round1 (q : ℚ) : ℚ := (⌊q * 10 + 1/2⌋ : ℚ) / 10

/-- A stat before the ranking pass (lines 393–402);
`total = filteredTicks.length || 1`. -/
def mkBaseStat (total : Nat) (l : List TickData) (d : Nat) : DigitStat :=
  ⟨d, countDigit l d, round1 (((countDigit l d : ℚ) / total) * 100),
    false, false, false, false⟩

/-- Insertion step of the stable descending sort
(`sort((a, b) => b.percentage - a.percentage)`). -/
def insertDesc (x : DigitStat) : List DigitStat → List DigitStat
  | [] => [x]
  | y :: ys =>
    if y.percentage ≤ x.percentage then x :: y :: ys else y :: insertDesc x ys

/-- Stable sort by descending percentage. -/
def sortDesc : List DigitStat → List DigitStat
  | [] => []
  | x :: xs => insertDesc x (sortDesc xs)

/-- Insertion step of the stable ascending sort
(`sort((a, b) => a.percentage - b.percentage)`). -/
def insertAsc (x : DigitStat) : List DigitStat → List DigitStat
  | [] => [x]
  | y :: ys =>
    if x.percentage ≤ y.percentage then x :: y :: ys else y :: insertAsc x ys

/-- Stable sort by ascending percentage. -/
def sortAsc : List DigitStat → List DigitStat
  | [] => []
  | x :: xs => insertAsc x (sortAsc xs)

/-- Sets the four rank flags of one stat.  The JS code mutates the objects
found at positions 0 and 1 of the two sorted copies; since the ten digits
are distinct, identifying those objects by their digit is equivalent. -/
def setFlags (hi hi2 lo lo2 : Option Nat) (s : DigitStat) : DigitStat :=
  { s with
    isHighest := hi == some s.digit
    is2ndHighest := hi2 == some s.digit
    isLowest := lo == some s.digit
    is2ndLowest := lo2 == some s.digit }

/-- The ranking pass (lines 404–414). -/
def markFlags (stats : List DigitStat) : List DigitStat :=
  let desc := sortDesc stats
  let asc := sortAsc stats
  stats.map (setFlags ((desc[0]?).map (·.digit)) ((desc[1]?).map (·.digit))
    ((asc[0]?).map (·.digit)) ((asc[1]?).map (·.digit)))

/-- `calculateDigitStats` (lines 357–417). -/
def calculateDigitStats (m : Market) (ticks : List TickData) : List DigitStat :=
  if ticks.isEmpty then
    (List.range 10).map (fun d => ⟨d, 0, 0, false, false, false, false⟩)
  else
    let filtered := filterTicks m ticks
    let total := if filtered.length = 0 then 1 else filtered.length
    markFlags ((List.range 10).map (mkBaseStat total filtered))

/-- The list of the ten percentage values. -/
def percentages (m : Market) (ticks : List TickData) : List ℚ :=
  (calculateDigitStats m ticks).map (·.percentage)

lemma setFlags_percentage (hi hi2 lo lo2 : Option Nat) (s : DigitStat) :
    (setFlags hi hi2 lo lo2 s).percentage = s.percentage := rfl

lemma markFlags_percentages (l : List DigitStat) :
    (markFlags l).map (·.percentage) = l.map (·.percentage) := by
  unfold markFlags
  rw [List.map_map]
  rfl

lemma list_range_map_sum {M : Type} [AddCommMonoid M] (f : ℕ → M) (n : ℕ) :
    ((List.range n).map f).sum = ∑ d ∈ Finset.range n, f d := by
  induction n with
  | zero => simp
  | succ k ih =>
    rw [List.range_succ, List.map_append, List.sum_append, Finset.sum_range_succ, ih]
    simp

lemma countDigit_cons (t : TickData) (ts : List TickData) (d : Nat) :
    countDigit (t :: ts) d = (if t.digit.val = d then 1 else 0) + countDigit ts d := by
  by_cases h : t.digit.val = d
  · simp [countDigit, List.filter_cons, h]
    omega
  · simp [countDigit, List.filter_cons, h]

lemma sum_countDigit (l : List TickData) :
    ∑ d ∈ Finset.range 10, countDigit l d = l.length := by
  induction l with
  | nil => simp [countDigit]
  | cons t ts ih =>
    simp only [countDigit_cons]
    rw [Finset.sum_add_distrib, ih, Finset.sum_ite_eq]
    simp [Finset.mem_range.mpr t.digit.isLt]
    omega

lemma round1_abs_sub (x : ℚ) : |round1 x - x| ≤ 1/20 := by
  have h1 : (⌊x * 10 + 1/2⌋ : ℚ) ≤ x * 10 + 1/2 := Int.floor_le _
  have h2 : x * 10 + 1/2 < (⌊x * 10 + 1/2⌋ : ℚ) + 1 := Int.lt_floor_add_one _
  rw [abs_le]
  unfold round1
  constructor <;> linarith

lemma round1_zero : round1 0 = 0 := by
  norm_num [round1]

lemma filterTicks_nil (m : Market) : filterTicks m [] = [] := by
  cases m <;> rfl

/-- **C2** (amended tolerance 0.5).  For every tick sequence and filter
mode, the ten digit percentages (each rounded to one decimal, hence each
off by at most 0.05) sum to 100 within 0.5 whenever the filtered tick
count is positive, and are all 0 whenever the filtered tick count is 0. -/
theorem c2_percentage_sum (m : Market) (ticks : List TickData) :
    (0 < (filterTicks m ticks).length →
      |(percentages m ticks).sum - 100| ≤ 1/2) ∧
    ((filterTicks m ticks).length = 0 →
      ∀ q ∈ percentages m ticks, q = 0) := by
  constructor
  · intro hpos
    have hne : ticks ≠ [] := by
      intro h
      rw [h, filterTicks_nil] at hpos
      simp at hpos
    have hemp : ¬(ticks.isEmpty = true) := by
      simpa [List.isEmpty_iff] using hne
    set F := filterTicks m ticks with hF
    set n := F.length with hn
    have hn0 : n ≠ 0 := Nat.pos_iff_ne_zero.mp hpos
    have hsum :
        (percentages m ticks).sum =
          ∑ d ∈ Finset.range 10, round1 (((countDigit F d : ℚ) / n) * 100) := by
      unfold percentages calculateDigitStats
      rw [if_neg hemp]
      rw [markFlags_percentages, List.map_map]
      rw [if_neg hn0]
      rw [list_range_map_sum]
      rfl
    have hcast : ((n : ℚ)) ≠ 0 := Nat.cast_ne_zero.mpr hn0
    have hexact :
        ∑ d ∈ Finset.range 10, ((countDigit F d : ℚ) / n) * 100 = 100 := by
      have h1 : ∀ d ∈ Finset.range 10,
          ((countDigit F d : ℚ) / n) * 100 = (countDigit F d : ℚ) * (100 / n) := by
        intro d _
        field_simp
      rw [Finset.sum_congr rfl h1, ← Finset.sum_mul]
      have h2 : ∑ d ∈ Finset.range 10, (countDigit F d : ℚ) = (n : ℚ) := by
        rw [← Nat.cast_sum, sum_countDigit]
      rw [h2]
      field_simp
    have hdiff :
        (percentages m ticks).sum - 100 =
          ∑ d ∈ Finset.range 10,
            (round1 (((countDigit F d : ℚ) / n) * 100) -
              ((countDigit F d : ℚ) / n) * 100) := by
      rw [Finset.sum_sub_distrib, hsum, hexact]
    rw [hdiff]
    refine le_trans (Finset.abs_sum_le_sum_abs _ _) ?_
    refine le_trans (Finset.sum_le_sum (fun i _ => round1_abs_sub _)) ?_
    simp [Finset.sum_const, Finset.card_range]
    norm_num
  · intro hzero q hq
    by_cases hne : ticks = []
    · subst hne
      unfold percentages calculateDigitStats at hq
      simp at hq
      obtain ⟨d, _, rfl⟩ := hq
      rfl
    · have hemp : ¬(ticks.isEmpty = true) := by
        simpa [List.isEmpty_iff] using hne
      have hFnil : filterTicks m ticks = [] := List.length_eq_zero.mp hzero
      unfold percentages calculateDigitStats at hq
      rw [if_neg hemp] at hq
      rw [markFlags_percentages, List.map_map] at hq
      simp only [hzero, hFnil] at hq
      simp only [List.mem_map, List.mem_range] at hq
      obtain ⟨d, _, rfl⟩ := hq
      simp [Function.comp, mkBaseStat, countDigit, round1_zero]

lemma filter_insertDesc (x : DigitStat) (l : List DigitStat) (q : ℚ) :
    (insertDesc x l).filter (fun s => s.percentage == q) =
      if x.percentage = q then x :: l.filter (fun s => s.percentage == q)
      else l.filter (fun s => s.percentage == q) := by
  induction l with
  | nil =>
    by_cases h : x.percentage = q <;> simp [insertDesc, h]
  | cons y ys ih =>
    unfold insertDesc
    by_cases hyx : y.percentage ≤ x.percentage
    · rw [if_pos hyx]
      by_cases h : x.percentage = q <;>
        simp [List.filter_cons, h]
    · rw [if_neg hyx]
      by_cases h : x.percentage = q
      · have hy : ¬(y.percentage = q) := fun he =>
          hyx (le_of_eq (he.trans h.symm))
        simp [List.filter_cons, hy, h, ih]
      · by_cases hy : y.percentage = q <;>
          simp [List.filter_cons, hy, h, ih]

lemma filter_insertAsc (x : DigitStat) (l : List DigitStat) (q : ℚ) :
    (insertAsc x l).filter (fun s => s.percentage == q) =
      if x.percentage = q then x :: l.filter (fun s => s.percentage == q)
      else l.filter (fun s => s.percentage == q) := by
  induction l with
  | nil =>
    by_cases h : x.percentage = q <;> simp [insertAsc, h]
  | cons y ys ih =>
    unfold insertAsc
    by_cases hxy : x.percentage ≤ y.percentage
    · rw [if_pos hxy]
      by_cases h : x.percentage = q <;>
        simp [List.filter_cons, h]
    · rw [if_neg hxy]
      by_cases h : x.percentage = q
      · have hy : ¬(y.percentage = q) := fun he => by
          rw [← h] at he
          exact hxy (le_of_eq he.symm)
        simp [List.filter_cons, hy, h, ih]
      · by_cases hy : y.percentage = q <;>
          simp [List.filter_cons, hy, h, ih]

/-- Stability of the descending sort: for every percentage value, the
elements carrying it appear in the sorted list in their original order. -/
lemma sortDesc_stable (l : List DigitStat) (q : ℚ) :
    (sortDesc l).filter (fun s => s.percentage == q) =
      l.filter (fun s => s.percentage == q) := by
  induction l with
  | nil => rfl
  | cons x xs ih =>
    unfold sortDesc
    rw [filter_insertDesc]
    by_cases h : x.percentage = q <;> simp [List.filter_cons, h, ih]

/-- Stability of the ascending sort. -/
lemma sortAsc_stable (l : List DigitStat) (q : ℚ) :
    (sortAsc l).filter (fun s => s.percentage == q) =
      l.filter (fun s => s.percentage == q) := by
  induction l with
  | nil => rfl
  | cons x xs ih =>
    unfold sortAsc
    rw [filter_insertAsc]
    by_cases h : x.percentage = q <;> simp [List.filter_cons, h, ih]

/-- A tick with the given digit (price and timestamp are irrelevant to the
statistics ranking). -/
def mkTick (d : Fin 10) : TickData := ⟨d, 0, 0⟩

/-- 22 ticks realizing the counts [5,5,3,3,2,2,1,1,0,0] for digits 0..9. -/
def ticks22 : List TickData :=
  [mkTick 0, mkTick 0, mkTick 0, mkTick 0, mkTick 0,
   mkTick 1, mkTick 1, mkTick 1, mkTick 1, mkTick 1,
   mkTick 2, mkTick 2, mkTick 2,
   mkTick 3, mkTick 3, mkTick 3,
   mkTick 4, mkTick 4,
   mkTick 5, mkTick 5,
   mkTick 6,
   mkTick 7]

/-- The pre-ranking stats of `ticks22`: percentages 22.7, 13.6, 9.1, 4.5
and 0, each appearing twice. -/
def base22 : List DigitStat :=
  [⟨0, 5, 227/10, false, false, false, false⟩,
   ⟨1, 5, 227/10, false, false, false, false⟩,
   ⟨2, 3, 136/10, false, false, false, false⟩,
   ⟨3, 3, 136/10, false, false, false, false⟩,
   ⟨4, 2, 91/10, false, false, false, false⟩,
   ⟨5, 2, 91/10, false, false, false, false⟩,
   ⟨6, 1, 45/10, false, false, false, false⟩,
   ⟨7, 1, 45/10, false, false, false, false⟩,
   ⟨8, 0, 0, false, false, false, false⟩,
   ⟨9, 0, 0, false, false, false, false⟩]

/-- `base22` sorted ascending by the stable sort: ties keep digit order. -/
def asc22 : List DigitStat :=
  [⟨8, 0, 0, false, false, false, false⟩,
   ⟨9, 0, 0, false, false, false, false⟩,
   ⟨6, 1, 45/10, false, false, false, false⟩,
   ⟨7, 1, 45/10, false, false, false, false⟩,
   ⟨4, 2, 91/10, false, false, false, false⟩,
   ⟨5, 2, 91/10, false, false, false, false⟩,
   ⟨2, 3, 136/10, false, false, false, false⟩,
   ⟨3, 3, 136/10, false, false, false, false⟩,
   ⟨0, 5, 227/10, false, false, false, false⟩,
   ⟨1, 5, 227/10, false, false, false, false⟩]

lemma base22_eval :
    (List.range 10).map (mkBaseStat 22 ticks22) = base22 := by
  have h0 : countDigit ticks22 0 = 5 := by decide
  have h1 : countDigit ticks22 1 = 5 := by decide
  have h2 : countDigit ticks22 2 = 3 := by decide
  have h3 : countDigit ticks22 3 = 3 := by decide
  have h4 : countDigit ticks22 4 = 2 := by decide
  have h5 : countDigit ticks22 5 = 2 := by decide
  have h6 : countDigit ticks22 6 = 1 := by decide
  have h7 : countDigit ticks22 7 = 1 := by decide
  have h8 : countDigit ticks22 8 = 0 := by decide
  have h9 : countDigit ticks22 9 = 0 := by decide
  rw [show List.range 10 = [0,1,2,3,4,5,6,7,8,9] from by decide]
  simp only [List.map_cons, List.map_nil, mkBaseStat,
    h0, h1, h2, h3, h4, h5, h6, h7, h8, h9, base22]
  norm_num [round1]

lemma sortDesc_base22 : sortDesc base22 = base22 := by
  norm_num [sortDesc, insertDesc, base22]

lemma sortAsc_base22 : sortAsc base22 = asc22 := by
  norm_num [sortAsc, insertAsc, base22, asc22]

lemma calculateDigitStats_ticks22 :
    calculateDigitStats .circles ticks22 = markFlags base22 := by
  unfold calculateDigitStats
  rw [if_neg (by decide)]
  simp only [filterTicks]
  rw [show (if (ticks22.length = 0) then 1 else ticks22.length) = 22 from by decide]
  rw [base22_eval]

/-- **C3**.  Rank marking is a stable sort by percentage: for any stats,
both sorts keep elements of equal percentage in their original (ascending
digit) order; in particular, on counts [5,5,3,3,2,2,1,1,0,0] for digits
0..9, digit 0 is marked `isHighest`, digit 1 `is2ndHighest`, digit 8
`isLowest` and digit 9 `is2ndLowest`. -/
theorem c3_stable_ranking :
    (∀ (l : List DigitStat) (q : ℚ),
      (sortDesc l).filter (fun s => s.percentage == q) =
          l.filter (fun s => s.percentage == q) ∧
        (sortAsc l).filter (fun s => s.percentage == q) =
          l.filter (fun s => s.percentage == q)) ∧
      (calculateDigitStats .circles ticks22).map
          (fun s => (s.digit, s.isHighest, s.is2ndHighest, s.isLowest, s.is2ndLowest)) =
        [(0, true, false, false, false),
         (1, false, true, false, false),
         (2, false, false, false, false),
         (3, false, false, false, false),
         (4, false, false, false, false),
         (5, false, false, false, false),
         (6, false, false, false, false),
         (7, false, false, false, false),
         (8, false, false, true, false),
         (9, false, false, false, true)] := by
  refine ⟨fun l q => ⟨sortDesc_stable l q, sortAsc_stable l q⟩, ?_⟩
  rw [calculateDigitStats_ticks22]
  unfold markFlags
  rw [sortDesc_base22, sortAsc_base22]
  simp [base22, asc22, setFlags]

lemma insertDesc_const (x : DigitStat) (l : List DigitStat) (q : ℚ)
    (hx : x.percentage = q) (hl : ∀ s ∈ l, s.percentage = q) :
    insertDesc x l = x :: l := by
  cases l with
  | nil => rfl
  | cons y ys =>
    have hy : y.percentage = q := hl y (by simp)
    unfold insertDesc
    rw [if_pos (le_of_eq (hy.trans hx.symm))]

lemma sortDesc_const (l : List DigitStat) (q : ℚ)
    (hl : ∀ s ∈ l, s.percentage = q) : sortDesc l = l := by
  induction l with
  | nil => rfl
  | cons x xs ih =>
    unfold sortDesc
    have hxs : ∀ s ∈ xs, s.percentage = q := fun s hs => hl s (by simp [hs])
    rw [ih hxs, insertDesc_const x xs q (hl x (by simp)) hxs]

lemma insertAsc_const (x : DigitStat) (l : List DigitStat) (q : ℚ)
    (hx : x.percentage = q) (hl : ∀ s ∈ l, s.percentage = q) :
    insertAsc x l = x :: l := by
  cases l with
  | nil => rfl
  | cons y ys =>
    have hy : y.percentage = q := hl y (by simp)
    unfold insertAsc
    rw [if_pos (le_of_eq (hx.trans hy.symm))]

lemma sortAsc_const (l : List DigitStat) (q : ℚ)
    (hl : ∀ s ∈ l, s.percentage = q) : sortAsc l = l := by
  induction l with
  | nil => rfl
  | cons x xs ih =>
    unfold sortAsc
    have hxs : ∀ s ∈ xs, s.percentage = q := fun s hs => hl s (by simp [hs])
    rw [ih hxs, insertAsc_const x xs q (hl x (by simp)) hxs]

lemma base_const_percentage (total : ℕ) (F : List TickData)
    (heq : ∀ d, d < 10 → countDigit F d = countDigit F 0) :
    ∀ s ∈ (List.range 10).map (mkBaseStat total F),
      s.percentage = round1 (((countDigit F 0 : ℚ) / total) * 100) := by
  intro s hs
  simp only [List.mem_map, List.mem_range] at hs
  obtain ⟨d, hd, rfl⟩ := hs
  simp [mkBaseStat, heq d hd]

lemma flags_of_const (total : ℕ) (F : List TickData)
    (heq : ∀ d, d < 10 → countDigit F d = countDigit F 0) :
    markFlags ((List.range 10).map (mkBaseStat total F)) =
      ((List.range 10).map (mkBaseStat total F)).map
        (setFlags (some 0) (some 1) (some 0) (some 1)) := by
  have hc := base_const_percentage total F heq
  simp only [markFlags]
  rw [sortDesc_const _ _ hc, sortAsc_const _ _ hc]
  have h0 : ((List.range 10).map (mkBaseStat total F))[0]? =
      some (mkBaseStat total F 0) := by
    simp
  have h1 : ((List.range 10).map (mkBaseStat total F))[1]? =
      some (mkBaseStat total F 1) := by
    simp
  rw [h0, h1]
  rfl

/-- **C10**.  The four rank flags are not mutually exclusive: on any
non-empty tick input whose ten filtered digit counts are all equal, digit
0 is marked both `isHighest` and `isLowest`, and digit 1 both
`is2ndHighest` and `is2ndLowest` (both stable sorts leave the stats in
digit order). -/
theorem c10_equal_counts (m : Market) (ticks : List TickData)
    (hne : ticks ≠ [])
    (heq : ∀ d, d < 10 →
      countDigit (filterTicks m ticks) d = countDigit (filterTicks m ticks) 0) :
    ∃ s0 s1,
      (calculateDigitStats m ticks)[0]? = some s0 ∧
        (calculateDigitStats m ticks)[1]? = some s1 ∧
        s0.digit = 0 ∧ s0.isHighest = true ∧ s0.isLowest = true ∧
        s1.digit = 1 ∧ s1.is2ndHighest = true ∧ s1.is2ndLowest = true := by
  have hne' : ¬(ticks.isEmpty = true) := by
    simpa [List.isEmpty_iff] using hne
  have hstats : calculateDigitStats m ticks =
      ((List.range 10).map
          (mkBaseStat
            (if (filterTicks m ticks).length = 0 then 1
              else (filterTicks m ticks).length)
            (filterTicks m ticks))).map
        (setFlags (some 0) (some 1) (some 0) (some 1)) := by
    simp only [calculateDigitStats]
    rw [if_neg hne']
    exact flags_of_const _ _ heq
  rw [hstats]
  refine ⟨setFlags (some 0) (some 1) (some 0) (some 1)
      (mkBaseStat
        (if (filterTicks m ticks).length = 0 then 1
          else (filterTicks m ticks).length)
        (filterTicks m ticks) 0),
    setFlags (some 0) (some 1) (some 0) (some 1)
      (mkBaseStat
        (if (filterTicks m ticks).length = 0 then 1
          else (filterTicks m ticks).length)
        (filterTicks m ticks) 1),
    by simp, by simp, rfl, rfl, rfl, rfl, rfl, rfl⟩

/-- **C10** witness: ten ticks, one of each digit. -/
theorem c10_equal_counts_witness :
    ∃ s0 s1,
      (calculateDigitStats .circles
          [mkTick 0, mkTick 1, mkTick 2, mkTick 3, mkTick 4,
           mkTick 5, mkTick 6, mkTick 7, mkTick 8, mkTick 9])[0]? = some s0 ∧
        (calculateDigitStats .circles
            [mkTick 0, mkTick 1, mkTick 2, mkTick 3, mkTick 4,
             mkTick 5, mkTick 6, mkTick 7, mkTick 8, mkTick 9])[1]? = some s1 ∧
        s0.digit = 0 ∧ s0.isHighest = true ∧ s0.isLowest = true ∧
        s1.digit = 1 ∧ s1.is2ndHighest = true ∧ s1.is2ndLowest = true :=
  c10_equal_counts .circles
    [mkTick 0, mkTick 1, mkTick 2, mkTick 3, mkTick 4,
     mkTick 5, mkTick 6, mkTick 7, mkTick 8, mkTick 9]
    (by decide) (by decide)

/-- 19 ticks realizing counts [1,1,1,1,1,1,1,1,1,10]: each percentage
rounds up (9 × 5.3 + 52.6 = 100.3). -/
def ticks19 : List TickData :=
  [mkTick 0, mkTick 1, mkTick 2, mkTick 3, mkTick 4,
   mkTick 5, mkTick 6, mkTick 7, mkTick 8,
   mkTick 9, mkTick 9, mkTick 9, mkTick 9, mkTick 9,
   mkTick 9, mkTick 9, mkTick 9, mkTick 9, mkTick 9]

lemma percentages_ticks19 : (percentages .circles ticks19).sum = 1003/10 := by
  have hc : ∀ d, d < 9 → countDigit ticks19 d = 1 := by decide
  have hc9 : countDigit ticks19 9 = 10 := by decide
  unfold percentages calculateDigitStats
  rw [if_neg (by decide)]
  simp only [filterTicks]
  rw [show (if (ticks19.length = 0) then 1 else ticks19.length) = 19 from by decide]
  rw [markFlags_percentages, List.map_map, list_range_map_sum]
  rw [Finset.sum_range_succ, Finset.sum_range_succ, Finset.sum_range_succ,
    Finset.sum_range_succ, Finset.sum_range_succ, Finset.sum_range_succ,
    Finset.sum_range_succ, Finset.sum_range_succ, Finset.sum_range_succ,
    Finset.sum_range_succ, Finset.sum_range_zero]
  simp only [Function.comp, mkBaseStat, hc9,
    hc 0 (by norm_num), hc 1 (by norm_num), hc 2 (by norm_num),
    hc 3 (by norm_num), hc 4 (by norm_num), hc 5 (by norm_num),
    hc 6 (by norm_num), hc 7 (by norm_num), hc 8 (by norm_num)]
  norm_num [round1]

/-- **C2** counterexample to the 0.1 tolerance: with counts
[1,1,1,1,1,1,1,1,1,10] over 19 raw ticks the rounded percentages are nine
times 5.3 plus 52.6, summing to 100.3, which deviates from 100 by 0.3. -/
theorem c2_counterexample :
    0 < (filterTicks .circles ticks19).length ∧
      (percentages .circles ticks19).sum = 1003/10 ∧
      ¬(|(1003/10 : ℚ) - 100| ≤ 1/10) := by
  refine ⟨by decide, percentages_ticks19, ?_⟩
  rw [show (1003/10 : ℚ) - 100 = 3/10 from by norm_num,
    abs_of_nonneg (by norm_num : (0:ℚ) ≤ 3/10)]
  norm_num

/-- **C2** witness: the amended theorem applied to `ticks19` (positive
filtered count) and to a two-tick input whose `matches` filter is empty
(zero filtered count). -/
theorem c2_percentage_sum_witness :
    (0 < (filterTicks .circles ticks19).length ∧
      |(percentages .circles ticks19).sum - 100| ≤ 1/2) ∧
      ((filterTicks .matches [mkTick 1, mkTick 2]).length = 0 ∧
        ∀ q ∈ percentages .matches [mkTick 1, mkTick 2], q = 0) :=
  ⟨⟨by decide, (c2_percentage_sum .circles ticks19).1 (by decide)⟩,
    ⟨by decide, (c2_percentage_sum .matches [mkTick 1, mkTick 2]).2 (by decide)⟩⟩

/-! ## History fetch (`DAnalysisAPI.getTicksHistory`, lines 253–294)

The promise body first rejects when the socket is not OPEN, then
validates the symbol (rejecting before any `send`), then stores the
response callback under the request id, sends the request, and arms a
10-second (10 time-unit) timer that rejects and removes the callback if
it is still registered.  `onmessage` resolves through the stored
callback, deleting it first, so the promise settles at most once and a
late response finds no callback and is dropped. -/

inductive FetchError where
  | notConnected | invalidSymbol | requestTimeout
deriving DecidableEq

inductive FetchOutcome where
  | rejected (e : FetchError)
  | resolved
deriving DecidableEq

/-- One outbound `ticks_history` request. -/
structure HistoryRequest where
  symbol : String
  count : Nat
deriving DecidableEq

/-- `!symbol || symbol === 'na' || symbol === 'undefined' || symbol === 'null'`
negated (line 261). -/
def isValidSymbol (s : String) : Bool :=
  !(s == "" || s == "na" || s == "undefined" || s == "null")

/-- The lifecycle state of one `getTicksHistory` call: whether its
callback is still registered under its request id, how the promise has
settled, and the requests sent over the socket. -/
structure HistoryFetchState where
  pending : Bool
  outcome : Option FetchOutcome
  sent : List HistoryRequest
deriving DecidableEq

/-- The synchronous part of `getTicksHistory`: connection check, symbol
validation, callback registration and send. -/
def startTicksHistory (connected : Bool) (symbol : String) (count : Nat) :
    HistoryFetchState :=
  if !connected then ⟨false, some (.rejected .notConnected), []⟩
  else if !isValidSymbol symbol then ⟨false, some (.rejected .invalidSymbol), []⟩
  else ⟨true, none, [⟨symbol, count⟩]⟩

/-- `onmessage` routing a matching history response: resolves through the
registered callback (deleting it), or drops the message when no callback
is registered. -/
def onHistoryResponse (s : HistoryFetchState) : HistoryFetchState :=
  if s.pending then { s with pending := false, outcome := some .resolved } else s

/-- The 10-unit timer firing: rejects with the timeout error if the
callback is still registered, otherwise does nothing. -/
def onTimeoutFire (s : HistoryFetchState) : HistoryFetchState :=
  if s.pending then
    { s with pending := false, outcome := some (.rejected .requestTimeout) }
  else s

/-- A whole call, given the arrival time of the matching response (none =
never): the response event runs before the timer iff it arrives strictly
within 10 units of the send. -/
def runTicksHistory (connected : Bool) (symbol : String) (count : Nat)
    (responseAt : Option Nat) : HistoryFetchState :=
  let s0 := startTicksHistory connected symbol count
  match responseAt with
  | none => onTimeoutFire s0
  | some t =>
    if t < 10 then onTimeoutFire (onHistoryResponse s0)
    else onHistoryResponse (onTimeoutFire s0)

/-- **C6** (amended: on a connected transport).  A history fetch on a
connected transport (a) rejects with the invalid-symbol error before any
message is sent whenever the symbol fails validation; (b) rejects with
the timeout error when no matching response arrives within 10 time units
of the send; (c) always settles, with no callback left registered; and
(d) once the callback is gone — the call settled — a further response or
timer event leaves the state unchanged (late responses are ignored). -/
theorem c6_history_fetch (symbol : String) (count : Nat)
    (responseAt : Option Nat) :
    (isValidSymbol symbol = false →
      runTicksHistory true symbol count responseAt =
        ⟨false, some (.rejected .invalidSymbol), []⟩) ∧
    (isValidSymbol symbol = true →
      (responseAt = none ∨ ∃ t, responseAt = some t ∧ 10 ≤ t) →
      (runTicksHistory true symbol count responseAt).outcome =
        some (.rejected .requestTimeout)) ∧
    ((runTicksHistory true symbol count responseAt).outcome ≠ none ∧
      (runTicksHistory true symbol count responseAt).pending = false) ∧
    (∀ s : HistoryFetchState, s.pending = false →
      onHistoryResponse s = s ∧ onTimeoutFire s = s) := by
  refine ⟨?_, ?_, ?_, ?_⟩
  · intro hbad
    unfold runTicksHistory startTicksHistory
    simp only [Bool.not_true, hbad, Bool.not_false, if_true, if_false,
      Bool.false_eq_true]
    cases responseAt with
    | none => rfl
    | some t =>
      by_cases ht : t < 10 <;>
        simp [ht, onHistoryResponse, onTimeoutFire]
  · intro hgood hlate
    unfold runTicksHistory startTicksHistory
    simp only [Bool.not_true, hgood, Bool.not_false, if_false, if_true,
      Bool.false_eq_true]
    rcases hlate with rfl | ⟨t, rfl, ht⟩
    · rfl
    · dsimp only
      rw [if_neg (by omega)]
      rfl
  · unfold runTicksHistory startTicksHistory
    by_cases hc : isValidSymbol symbol <;>
      cases responseAt with
      | none => simp [hc, onHistoryResponse, onTimeoutFire]
      | some t =>
        by_cases ht : t < 10 <;>
          simp [hc, ht, onHistoryResponse, onTimeoutFire]
  · intro s hs
    unfold onHistoryResponse onTimeoutFire
    simp [hs]

/-- **C6** witness: both hypotheses discharged concretely — the invalid
symbol `"na"` (no message sent) and a valid symbol whose response never
arrives (timeout). -/
theorem c6_history_fetch_witness :
    (isValidSymbol "na" = false ∧
      runTicksHistory true "na" 1000 none =
        ⟨false, some (.rejected .invalidSymbol), []⟩) ∧
      (isValidSymbol "R_10" = true ∧
        (runTicksHistory true "R_10" 1000 none).outcome =
          some (.rejected .requestTimeout)) ∧
      ((⟨false, some .resolved, [⟨"R_10", 1000⟩]⟩ : HistoryFetchState).pending = false ∧
        onHistoryResponse ⟨false, some .resolved, [⟨"R_10", 1000⟩]⟩ =
            ⟨false, some .resolved, [⟨"R_10", 1000⟩]⟩ ∧
          onTimeoutFire ⟨false, some .resolved, [⟨"R_10", 1000⟩]⟩ =
            ⟨false, some .resolved, [⟨"R_10", 1000⟩]⟩) :=
  ⟨⟨by decide, (c6_history_fetch "na" 1000 none).1 (by decide)⟩,
    ⟨by decide, (c6_history_fetch "R_10" 1000 none).2.1 (by decide) (Or.inl rfl)⟩,
    rfl,
    (c6_history_fetch "R_10" 1000 none).2.2.2 ⟨false, some .resolved, [⟨"R_10", 1000⟩]⟩ rfl⟩

/-- **C6** counterexample to the claim as stated: the connection check
precedes validation, so a call made while the transport is down rejects
with the connection error — not the invalid-symbol error — even though
the symbol `"na"` fails validation (no message is sent either way). -/
theorem c6_counterexample :
    runTicksHistory false "na" 1000 none =
        ⟨false, some (.rejected .notConnected), []⟩ ∧
      (FetchError.notConnected ≠ FetchError.invalidSymbol) := by
  exact ⟨rfl, by decide⟩

/-! ## Reconnection (`DAnalysisAPI`, lines 178–251, 296–317)

`reconnectAttempts` starts at 0 and `onopen` resets it to 0;
`reconnect()` increments it while it is below `maxReconnectAttempts` (5)
and schedules `connect` after `reconnectDelay * reconnectAttempts`
(base 1000 ms = one time unit per attempt number); at the cap it only
logs and schedules nothing.  `subscribeToTicks` rejects with the generic
`'WebSocket not connected'` error whenever the socket is not OPEN; no
`ReconnectExhausted` error exists anywhere in the class. -/

structure FeedClientState where
  reconnectAttempts : Nat
  maxReconnectAttempts : Nat
  reconnectDelay : Nat
  wsOpen : Bool
deriving DecidableEq

/-- The constructor field initializers (lines 178–180): 0 attempts, cap 5,
base delay 1000 ms; the socket starts closed. -/
def initFeedClient : FeedClientState := ⟨0, 5, 1000, false⟩

/-- `reconnect()` (lines 240–251): returns the new state and the delay of
the scheduled `connect`, if one was scheduled. -/
def reconnect (s : FeedClientState) : FeedClientState × Option Nat :=
  if s.reconnectAttempts < s.maxReconnectAttempts then
    ({ s with reconnectAttempts := s.reconnectAttempts + 1 },
      some (s.reconnectDelay * (s.reconnectAttempts + 1)))
  else (s, none)

/-- `ws.onopen` (lines 196–199): marks the socket open and resets the
attempt counter to zero. -/
def onOpen (s : FeedClientState) : FeedClientState :=
  { s with wsOpen := true, reconnectAttempts := 0 }

/-- `ws.onclose` (lines 225–228): the socket is down and `reconnect()`
runs. -/
def onClose (s : FeedClientState) : FeedClientState × Option Nat :=
  reconnect { s with wsOpen := false }

/-- The delays produced by `k` consecutive close events. -/
def closeSeq : FeedClientState → Nat → FeedClientState × List (Option Nat)
  | s, 0 => (s, [])
  | s, k + 1 =>
    let r := onClose s
    let rest := closeSeq r.1 k
    (rest.1, r.2 :: rest.2)

/-- `subscribeToTicks` (lines 296–317): rejects with the generic
connection error when the socket is not OPEN, otherwise registers the
callback under `tick_symbol` and resolves with that subscription id. -/
def subscribeToTicks (s : FeedClientState) (symbol : String) :
    Except String String :=
  if !s.wsOpen then .error "WebSocket not connected"
  else .ok ("tick_" ++ symbol)

/-- **C7** (amended: after exhaustion, `subscribe` fails with the generic
not-connected error; no `ReconnectExhausted` error exists).  (a) From a
reset counter, three consecutive transport closes schedule retries after
base×1, base×2 and base×3 (so 1, 2, 3 units for base 1); (b) a successful
connection resets the attempt counter to zero; (c) once the counter has
reached the cap a further close schedules no retry; (d) while the socket
is down — in particular after the retry budget is exhausted — subscribe
calls reject with the `'WebSocket not connected'` error. -/
theorem c7_reconnect_policy (s : FeedClientState) :
    (s.reconnectAttempts = 0 → 3 ≤ s.maxReconnectAttempts →
      (closeSeq s 3).2 =
        [some (s.reconnectDelay * 1), some (s.reconnectDelay * 2),
          some (s.reconnectDelay * 3)]) ∧
    ((onOpen s).reconnectAttempts = 0) ∧
    (s.reconnectAttempts = s.maxReconnectAttempts → (onClose s).2 = none) ∧
    (∀ symbol, s.wsOpen = false →
      subscribeToTicks s symbol = .error "WebSocket not connected") := by
  obtain ⟨a, m, d, w⟩ := s
  refine ⟨?_, rfl, ?_, ?_⟩
  · intro h0 hcap
    dsimp only at h0 hcap ⊢
    subst h0
    have h1 : 0 < m := by omega
    have h2 : 1 < m := by omega
    have h3 : 2 < m := by omega
    simp [closeSeq, onClose, reconnect, h1, h2, h3]
  · intro hmax
    dsimp only at hmax ⊢
    subst hmax
    simp [onClose, reconnect]
  · intro symbol hdown
    dsimp only at hdown ⊢
    subst hdown
    simp [subscribeToTicks]

/-- **C7** witness: the freshly constructed client (base delay 1000 ms =
1 unit, cap 5, counter 0, socket down) — delays 1000·1, 1000·2, 1000·3,
reset on open, and the not-connected subscribe error. -/
theorem c7_reconnect_policy_witness :
    ((closeSeq initFeedClient 3).2 =
        [some (1000 * 1), some (1000 * 2), some (1000 * 3)]) ∧
      (onOpen initFeedClient).reconnectAttempts = 0 ∧
      (onClose ⟨5, 5, 1000, false⟩).2 = none ∧
      subscribeToTicks initFeedClient "R_10" = .error "WebSocket not connected" :=
  ⟨(c7_reconnect_policy initFeedClient).1 (by decide) (by decide),
    (c7_reconnect_policy initFeedClient).2.1,
    (c7_reconnect_policy ⟨5, 5, 1000, false⟩).2.2.1 (by decide),
    (c7_reconnect_policy initFeedClient).2.2.2 "R_10" (by decide)⟩

/-- **C7** counterexample to the claim as stated: in the exhausted state
(5 of 5 attempts used, socket down) a subscribe call rejects with the
generic `'WebSocket not connected'` error; no error named
`ReconnectExhausted` is ever produced (none exists in the class). -/
theorem c7_counterexample :
    subscribeToTicks ⟨5, 5, 1000, false⟩ "R_10" =
        .error "WebSocket not connected" ∧
      "WebSocket not connected" ≠ "ReconnectExhausted" := by
  exact ⟨rfl, by decide⟩
